import Mathlib

/-!
Verification of the activity-filter and Eddington-number core of
geo-activity-playground.

The embedding mirrors two source modules:

* webui/eddington_blueprint.py: the function get_eddington_number, the
  histogram construction in the index route (counts over 0..max, reverse
  cumulative sum as total), and the running-history loop of
  get_eddington_number_history.  Daily totals are the integer
  (truncated) per-day distance sums, modelled as List Nat.  A Python
  function that can fall off its end (returning None) or raise is
  modelled with Option: none stands for the implicit None return or the
  raised exception, as noted at each definition.

* core/meta_search.py: SearchQuery, its active property, and
  apply_search_query.  The vectorized boolean masks are expressed as
  per-row predicates, one definition per mask component, combined by
  conjunction exactly as the source ANDs the partial masks.  Timestamps
  are microseconds since an epoch; a calendar date is a day index d,
  whose midnight is usPerDay * d and whose last representable instant is
  usPerDay * d + (usPerDay - 1).  A missing start (NaT) is none, and any
  comparison against it is false, as in pandas.  The regular-expression
  engine (Python's re module, external to the repository) is abstracted
  as a structure of two total functions: whether a pattern compiles, and
  whether a search finds a match in a text; apply_search_query returns
  Except, the error case standing for the re.error exception that
  propagates out of the name-mask comprehension.
-/

/-- The inner for-loop of get_eddington_number: walk the distances sorted
in descending order with a 1-based counter en, returning en - 1 at the
first distance below en.  Falling off the end of the Python for-loop
returns None, modelled by none. -/
def eddingtonLoop : List Nat → Nat → Option Nat
  | [], _ => none
  | d :: rest, en => if d < en then some (en - 1) else eddingtonLoop rest (en + 1)

/-- Embedding of get_eddington_number (eddington_blueprint.py, lines
96-107).  The single-element branch returns 1 when the sole value is at
least 1; its else-arm is the bare expression 0 without a return, so
control falls through to the sorting loop, exactly as in the source. -/
def get_eddington_number (distances : List Nat) : Option Nat :=
  if distances.length = 1 ∧ 1 ≤ distances.headD 0 then some 1
  else eddingtonLoop (List.insertionSort (fun a b => b ≤ a) distances) 1

/-- One row of the histogram dataframe built in the index route:
distance_km, count (days whose total is exactly this distance) and total
(days whose total is at least this distance). -/
structure HistRow where
  distance_km : Nat
  count : Nat
  total : Nat
deriving DecidableEq

/-- Rows for distances d, d+1, ... given the list of counts from d on.
The total of a row is its count plus the total of the following row,
which makes the total column the reverse cumulative sum
count[::-1].cumsum()[::-1] of the source. -/
def histRows (d : Nat) : List Nat → List HistRow
  | [] => []
  | c :: cs =>
    let rest := histRows (d + 1) cs
    ⟨d, c, c + (rest.headD ⟨0, 0, 0⟩).total⟩ :: rest

/-- Embedding of the histogram construction of the index route
(eddington_blueprint.py, lines 32-37): counts over the range
0..max(daily), then the reverse cumulative sum as total.  On an empty
input, max(counts.keys()) raises ValueError in Python; that fault is
modelled by none. -/
def histogram (daily : List Nat) : Option (List HistRow) :=
  match daily.max? with
  | none => none
  | some m => some (histRows 0 ((List.range (m + 1)).map (fun d => daily.count d)))

/-- The top-days insertion step of get_eddington_number_history: on an
empty list append the new total unconditionally; otherwise append it
only when it is at least the current minimum (the head, the list being
kept sorted) and re-sort ascending. -/
def topInsert (top : List Nat) (v : Nat) : List Nat :=
  match top with
  | [] => [v]
  | m :: _ => if m ≤ v then List.insertionSort (fun a b => a ≤ b) (top ++ [v]) else top

/-- The while-loop of get_eddington_number_history: pop the first element
while it is smaller than the length.  Evaluating the condition
top_days[0] < len(top_days) on an empty list raises IndexError in
Python, modelled by none. -/
def popLoop : List Nat → Option (List Nat)
  | [] => none
  | x :: xs => if x < xs.length + 1 then popLoop xs else some (x :: xs)

/-- The per-day loop of get_eddington_number_history over the remaining
daily totals, threading the current top-days list and emitting the
running Eddington number (the length of the top-days list) per day. -/
def historyAux : List Nat → List Nat → Option (List Nat)
  | _, [] => some []
  | top, v :: rest =>
    match popLoop (topInsert top v) with
    | none => none
    | some top2 =>
      match historyAux top2 rest with
      | none => none
      | some tail => some (top2.length :: tail)

/-- Embedding of the core loop of get_eddington_number_history
(eddington_blueprint.py, lines 134-148) over the chronologically ordered
daily totals; none models an IndexError escaping the loop. -/
def get_eddington_number_history (dailyTotals : List Nat) : Option (List Nat) :=
  historyAux [] dailyTotals

/-- Abstraction of Python's re module, which is external to the
repository: whether a pattern string compiles, and whether re.search
finds a match of the pattern anywhere in a text, given the
case-sensitivity flag.  Both are total; an invalid pattern instead
raises at the call site, which apply_search_query models explicitly. -/
structure RegexEngine where
  compileOk : String → Bool
  search : String → String → Bool → Bool

/-- One row of the activity table (core/meta_search.py): a stable index
label rid, the category columns, the name text and the start timestamp
in microseconds since the epoch, none standing for a missing value
(NaT). -/
structure ActivityRow where
  rid : Nat
  equipment : String
  kind : String
  name : String
  start : Option Nat
deriving DecidableEq

/-- Embedding of the SearchQuery dataclass (core/meta_search.py, lines
11-28).  A date is a day index; midnight of day d is usPerDay * d. -/
structure SearchQuery where
  equipment : List String
  kind : List String
  name : Option String
  name_case_sensitive : Bool
  start_begin : Option Nat
  start_end : Option Nat
deriving DecidableEq

/-- Python truthiness of the optional name field: None and the empty
string are falsy. -/
def nameTruthy : Option String → Bool
  | none => false
  | some s => !(s == "")

/-- The active property of SearchQuery: the Python chained or over the
truthiness of each field. -/
def SearchQuery.active (q : SearchQuery) : Bool :=
  !q.equipment.isEmpty || !q.kind.isEmpty || nameTruthy q.name ||
    q.start_begin.isSome || q.start_end.isSome

/-- Microseconds per day; midnight of day d is usPerDay * d and the last
representable instant of day d (23:59:59.999999, datetime.time.max) is
usPerDay * d + (usPerDay - 1). -/
def usPerDay : Nat := 86400000000

/-- Per-row form of the equipment mask: _filter_column ORs equality with
each requested value; an empty list means the branch is skipped and the
mask stays true. -/
def equipmentMask (q : SearchQuery) (row : ActivityRow) : Bool :=
  if q.equipment.isEmpty then true
  else q.equipment.any (fun e => row.equipment == e)

/-- Per-row form of the kind mask, identical in structure to the
equipment mask. -/
def kindMask (q : SearchQuery) (row : ActivityRow) : Bool :=
  if q.kind.isEmpty then true
  else q.kind.any (fun e => row.kind == e)

/-- Per-row form of the name mask: when the name field is truthy,
re.search of the pattern in the row's name with the case flag; skipped
otherwise. -/
def nameMask (eng : RegexEngine) (q : SearchQuery) (row : ActivityRow) : Bool :=
  if nameTruthy q.name then eng.search (q.name.getD "") row.name q.name_case_sensitive
  else true

/-- Per-row form of the start_begin mask: start_begin combined with
time.min is midnight of the day; a missing start compares false against
it, as any comparison with NaT is false in pandas. -/
def beginMask (q : SearchQuery) (s : Option Nat) : Bool :=
  match q.start_begin, s with
  | none, _ => true
  | some _, none => false
  | some d, some t => decide (usPerDay * d ≤ t)

/-- Per-row form of the start_end mask: start_end combined with time.max
is the last microsecond of the day; a missing start compares false. -/
def endMask (q : SearchQuery) (s : Option Nat) : Bool :=
  match q.start_end, s with
  | none, _ => true
  | some _, none => false
  | some d, some t => decide (t ≤ usPerDay * d + (usPerDay - 1))

/-- The conjunction of all mask components for one row, the per-row
reading of the running mask of apply_search_query. -/
def rowMask (eng : RegexEngine) (q : SearchQuery) (row : ActivityRow) : Bool :=
  equipmentMask q row && kindMask q row && nameMask eng q row &&
    beginMask q row.start && endMask q row.start

/-- Embedding of apply_search_query (core/meta_search.py, lines 68-100).
When the name field is truthy, the table non-empty and the pattern
invalid, the first re.search call inside the name-mask comprehension
raises re.error, modelled by the error case; with an empty table the
comprehension runs zero iterations and no error can arise.  Otherwise
the rows whose combined mask is true are returned in order, labels
intact. -/
def apply_search_query (eng : RegexEngine) (activity_meta : List ActivityRow)
    (search_query : SearchQuery) : Except String (List ActivityRow) :=
  if nameTruthy search_query.name && !activity_meta.isEmpty &&
      !eng.compileOk (search_query.name.getD "") then
    Except.error "invalid regular expression in name filter"
  else
    Except.ok (activity_meta.filter (fun row => rowMask eng search_query row))

/-- The histogram total column is non-increasing between adjacent rows. -/
def totalsNonIncreasing (rows : List HistRow) : Prop :=
  rows.Chain' (fun a b => b.total ≤ a.total)

/-- A regex engine whose every search succeeds, standing in for a
compiled pattern that matches everything; used in concrete witnesses. -/
def engTrue : RegexEngine :=
  ⟨fun _ => true, fun _ _ _ => true⟩

/-- A regex engine on which every pattern fails to compile, standing in
for a syntactically invalid pattern; used in concrete witnesses. -/
def engBad : RegexEngine :=
  ⟨fun _ => false, fun _ _ _ => false⟩

/-- Concrete rows mirroring the table of test_meta_search.py. -/
def rowA : ActivityRow := ⟨1, "A", "X", "Test1", some 100⟩

/-- Second concrete row of the test table. -/
def rowB : ActivityRow := ⟨2, "B", "X", "Test2", some 200⟩

/-- Third concrete row of the test table, with a missing start. -/
def rowC : ActivityRow := ⟨3, "B", "Y", "Test3", none⟩

/-- A concrete row whose start lies a few microseconds after midnight of
day 1. -/
def rowD : ActivityRow := ⟨5, "A", "X", "Test5", some 86400000005⟩

/-- Claim C1: the claim says get_eddington_number returns the largest E
whose E-th largest value is at least E, in particular 3 on [10, 10, 10].
The source loop only returns when some sorted value drops below its
1-based index; on [10, 10, 10] every value is at least its index, the
for-loop falls off its end and the function returns None instead of 3. -/
theorem get_eddington_number_ten_ten_ten_eval :
    get_eddington_number [10, 10, 10] = none := by
  rfl

/-- Claim C2: the claim says the empty input yields Eddington number 0
and an empty histogram without a fault.  The source returns None from
get_eddington_number (the loop body never runs) and raises ValueError in
the histogram construction (max of an empty sequence), both modelled by
none. -/
theorem empty_input_faults :
    get_eddington_number [] = none ∧ histogram [] = none := by
  exact ⟨rfl, rfl⟩

/-- Claim C3: the running-history loop over the chronologically ordered
daily totals [5, 1, 6] emits the running Eddington numbers [1, 1, 2],
following the top-days rule embodied in topInsert and popLoop. -/
theorem history_five_one_six :
    get_eddington_number_history [5, 1, 6] = some [1, 1, 2] := by
  rfl

/-- Claim C4: on a single-day input, get_eddington_number returns 1 when
the day's total is at least 1 (the early-return branch) and 0 when it is
smaller (the fall-through reaches the loop, which returns 0 at once). -/
theorem single_day_eddington (v : Nat) :
    get_eddington_number [v] = some (if 1 ≤ v then 1 else 0) := by
  cases v with
  | zero => rfl
  | succ n =>
    have hc : ([n + 1] : List Nat).length = 1 ∧ 1 ≤ ([n + 1] : List Nat).headD 0 :=
      ⟨rfl, Nat.succ_le_succ (Nat.zero_le n)⟩
    unfold get_eddington_number
    rw [if_pos hc, if_pos (Nat.succ_le_succ (Nat.zero_le n))]

/-- Witness for C4 at the inputs named by the claim: [1] yields 1 and
[0] yields 0. -/
theorem single_day_eddington_witness :
    get_eddington_number [1] = some 1 ∧ get_eddington_number [0] = some 0 := by
  exact ⟨by simpa using single_day_eddington 1, by simpa using single_day_eddington 0⟩

/-- On a successful return, the result is exactly the mask-filtered
table; both the error branch and the success branch of
apply_search_query are covered. -/
theorem apply_ok_eq (eng : RegexEngine) (table : List ActivityRow) (q : SearchQuery)
    (res : List ActivityRow) (h : apply_search_query eng table q = Except.ok res) :
    res = table.filter (fun row => rowMask eng q row) := by
  unfold apply_search_query at h
  split at h
  · exact absurd h (by simp)
  · injection h with h
    exact h.symm

/-- An inactive query has every field at its empty default. -/
theorem inactive_components (q : SearchQuery) (h : q.active = false) :
    q.equipment = [] ∧ q.kind = [] ∧ nameTruthy q.name = false ∧
      q.start_begin = none ∧ q.start_end = none := by
  obtain ⟨equipment, kind, name, ncs, sb, se⟩ := q
  unfold SearchQuery.active at h
  cases equipment with
  | cons a l => simp at h
  | nil =>
  cases kind with
  | cons a l => simp at h
  | nil =>
  cases sb with
  | some d => simp at h
  | none =>
  cases se with
  | some d => simp at h
  | none =>
  simp only [List.isEmpty_nil, Bool.not_true, Option.isSome_none, Bool.or_false,
    Bool.false_or] at h
  exact ⟨rfl, rfl, h, rfl, rfl⟩

/-- Claim C5: applying an inactive (empty) filter returns the table
unchanged: the error branch cannot trigger (the name field is falsy) and
every mask component is true on every row, so the filter keeps all rows
in order with their labels. -/
theorem apply_empty_filter_identity (eng : RegexEngine) (table : List ActivityRow)
    (q : SearchQuery) (h : q.active = false) :
    apply_search_query eng table q = Except.ok table := by
  obtain ⟨he, hk, hn, hb, hs⟩ := inactive_components q h
  have hmask : ∀ row : ActivityRow, rowMask eng q row = true := by
    intro row
    simp [rowMask, equipmentMask, kindMask, nameMask, beginMask, endMask,
      he, hk, hn, hb, hs]
  unfold apply_search_query
  rw [if_neg (by simp [hn])]
  rw [List.filter_eq_self.mpr (fun a _ => hmask a)]

/-- Witness for C5 on the three-row test table with the default query. -/
theorem apply_empty_filter_identity_witness :
    apply_search_query engTrue [rowA, rowB, rowC] ⟨[], [], none, false, none, none⟩ =
      Except.ok [rowA, rowB, rowC] := by
  exact apply_empty_filter_identity engTrue [rowA, rowB, rowC] _ rfl

/-- Claim C6: whatever the engine, table and filter, a successful
apply_search_query returns a sublist of the table: rows come from the
input without duplication, in the original relative order, labels
intact. -/
theorem apply_search_query_sublist (eng : RegexEngine) (table : List ActivityRow)
    (q : SearchQuery) (res : List ActivityRow)
    (h : apply_search_query eng table q = Except.ok res) :
    List.Sublist res table := by
  rw [apply_ok_eq eng table q res h]
  exact List.filter_sublist table

/-- Witness for C6: the equipment filter B on the test table keeps the
second and third rows, a sublist of the table. -/
theorem apply_search_query_sublist_witness :
    List.Sublist [rowB, rowC] [rowA, rowB, rowC] := by
  exact apply_search_query_sublist engTrue [rowA, rowB, rowC]
    ⟨["B"], [], none, false, none, none⟩ [rowB, rowC] rfl

/-- Claim C7, counterexample to the claim as stated: on the empty table
the name-mask comprehension runs zero iterations, so an invalid pattern
is never handed to the regex engine and apply_search_query returns the
empty table successfully instead of failing. -/
theorem invalid_regex_empty_table_ok :
    engBad.compileOk "[" = false ∧ nameTruthy (some "[") = true ∧
      apply_search_query engBad [] ⟨[], [], some "[", false, none, none⟩ =
        Except.ok [] := by
  exact ⟨rfl, rfl, rfl⟩

/-- Claim C7 as amended: on every NON-EMPTY table, a truthy name filter
whose pattern does not compile makes apply_search_query fail with the
error, never a silent no-match result. -/
theorem invalid_regex_error_nonempty (eng : RegexEngine) (table : List ActivityRow)
    (q : SearchQuery) (hne : table ≠ []) (ht : nameTruthy q.name = true)
    (hbad : eng.compileOk (q.name.getD "") = false) :
    apply_search_query eng table q =
      Except.error "invalid regular expression in name filter" := by
  have hemp : table.isEmpty = false := by
    cases table with
    | nil => exact absurd rfl hne
    | cons a l => rfl
  simp [apply_search_query, ht, hemp, hbad]

/-- Witness for the amended C7 on a one-row table with an invalid
pattern. -/
theorem invalid_regex_error_nonempty_witness :
    apply_search_query engBad [rowA] ⟨[], [], some "[", false, none, none⟩ =
      Except.error "invalid regular expression in name filter" := by
  exact invalid_regex_error_nonempty engBad [rowA] _ (List.cons_ne_nil rowA []) rfl rfl

/-- Claim C8: (1) under any filter with a date bound set, every row in a
successful result has a present start: a missing start makes the date
mask false, as NaT comparisons are false; (2) on a present start t, the
conjunction of the two date masks holds exactly when t is at least
midnight of start_begin (when set) and at most the last microsecond of
start_end (when set). -/
theorem date_filter_semantics :
    (∀ (eng : RegexEngine) (table : List ActivityRow) (q : SearchQuery)
        (res : List ActivityRow) (row : ActivityRow),
        apply_search_query eng table q = Except.ok res →
        (q.start_begin.isSome = true ∨ q.start_end.isSome = true) →
        row ∈ res → row.start.isSome = true) ∧
    (∀ (q : SearchQuery) (t : Nat),
        (beginMask q (some t) && endMask q (some t)) = true ↔
          ((∀ d, q.start_begin = some d → usPerDay * d ≤ t) ∧
           (∀ d, q.start_end = some d → t ≤ usPerDay * d + (usPerDay - 1)))) := by
  constructor
  · intro eng table q res row h hsome hmem
    rw [apply_ok_eq eng table q res h] at hmem
    have hm := (List.mem_filter.mp hmem).2
    simp only [rowMask, Bool.and_eq_true] at hm
    obtain ⟨⟨⟨⟨_, _⟩, _⟩, hb⟩, he⟩ := hm
    cases hrow : row.start with
    | some t => rfl
    | none =>
      rcases hsome with hsb | hse
      · obtain ⟨d, hd⟩ := Option.isSome_iff_exists.mp hsb
        rw [hrow] at hb
        simp [beginMask, hd] at hb
      · obtain ⟨d, hd⟩ := Option.isSome_iff_exists.mp hse
        rw [hrow] at he
        simp [endMask, hd] at he
  · intro q t
    cases hb : q.start_begin with
    | none =>
      cases he : q.start_end with
      | none => simp [beginMask, endMask, hb, he]
      | some d2 => simp [beginMask, endMask, hb, he]
    | some d1 =>
      cases he : q.start_end with
      | none => simp [beginMask, endMask, hb, he]
      | some d2 => simp [beginMask, endMask, hb, he]

/-- Witness for C8: with start_begin set to day 1, the row with the
missing start is dropped, and the kept row has a present start. -/
theorem date_filter_semantics_witness :
    rowD.start.isSome = true := by
  exact date_filter_semantics.1 engTrue [rowC, rowD]
    ⟨[], [], none, false, some 1, none⟩ [rowD] rowD rfl (Or.inl rfl)
    (List.Mem.head [])

/-- The total column of the rows built from any count list is
non-increasing between adjacent rows, whatever the starting distance. -/
theorem histRows_chain (cs : List Nat) : ∀ d : Nat, totalsNonIncreasing (histRows d cs) := by
  induction cs with
  | nil => intro d; exact List.chain'_nil
  | cons c cs ih =>
    intro d
    cases cs with
    | nil => exact List.chain'_singleton _
    | cons c2 cs2 =>
      have hrw : histRows d (c :: c2 :: cs2) =
          ⟨d, c, c + ((histRows (d + 1) (c2 :: cs2)).headD ⟨0, 0, 0⟩).total⟩ ::
            histRows (d + 1) (c2 :: cs2) := rfl
      have hrw2 : histRows (d + 1) (c2 :: cs2) =
          ⟨d + 1, c2, c2 + ((histRows (d + 1 + 1) cs2).headD ⟨0, 0, 0⟩).total⟩ ::
            histRows (d + 1 + 1) cs2 := rfl
      unfold totalsNonIncreasing
      rw [hrw, List.chain'_cons']
      constructor
      · intro y hy
        rw [hrw2] at hy
        simp only [List.head?_cons, Option.mem_def, Option.some.injEq] at hy
        rw [← hy, hrw2]
        simp only [List.headD_cons]
        exact Nat.le_add_left _ c
      · exact ih (d + 1)

/-- Claim C9: whenever the histogram is defined (non-empty input), its
total column is non-increasing as distance_km increases, the total being
the reverse cumulative sum of the count column. -/
theorem histogram_total_antitone (daily : List Nat) (rows : List HistRow)
    (h : histogram daily = some rows) : totalsNonIncreasing rows := by
  unfold histogram at h
  split at h
  · exact absurd h (by simp)
  · injection h with h
    rw [← h]
    exact histRows_chain _ 0

/-- Witness for C9 on the daily totals [2, 1, 1], whose histogram rows
are (0,0,3), (1,2,3), (2,1,1). -/
theorem histogram_total_antitone_witness :
    totalsNonIncreasing [⟨0, 0, 3⟩, ⟨1, 2, 3⟩, ⟨2, 1, 1⟩] := by
  exact histogram_total_antitone [2, 1, 1] [⟨0, 0, 3⟩, ⟨1, 2, 3⟩, ⟨2, 1, 1⟩] rfl

/-- The pop loop never exhausts a non-empty list all of whose elements
are at least 1: popping requires the head to be below the length, and a
singleton head of at least 1 is never below 1. -/
theorem popLoop_pos : ∀ l : List Nat, (∀ x ∈ l, 1 ≤ x) → l ≠ [] →
    ∃ l2, popLoop l = some l2 ∧ l2 ≠ [] ∧ ∀ x ∈ l2, 1 ≤ x := by
  intro l
  induction l with
  | nil => intro _ h; exact absurd rfl h
  | cons x xs ih =>
    intro hpos _
    by_cases hx : x < xs.length + 1
    · have hx1 : 1 ≤ x := hpos x (List.mem_cons_self x xs)
      have hxs : xs ≠ [] := by
        intro hnil
        rw [hnil] at hx
        simp at hx
        omega
      obtain ⟨l2, h1, h2, h3⟩ := ih (fun y hy => hpos y (List.mem_cons_of_mem x hy)) hxs
      refine ⟨l2, ?_, h2, h3⟩
      simp only [popLoop]
      rw [if_pos hx]
      exact h1
    · refine ⟨x :: xs, ?_, List.cons_ne_nil x xs, hpos⟩
      simp only [popLoop]
      rw [if_neg hx]

/-- The insertion step keeps the top-days list non-empty and keeps every
element at least 1: a new total is only inserted when it is at least the
current minimum. -/
theorem topInsert_pos (top : List Nat) (v : Nat) (hne : top ≠ [])
    (hpos : ∀ x ∈ top, 1 ≤ x) :
    topInsert top v ≠ [] ∧ ∀ x ∈ topInsert top v, 1 ≤ x := by
  cases top with
  | nil => exact absurd rfl hne
  | cons m rest =>
    by_cases hmv : m ≤ v
    · have heq : topInsert (m :: rest) v =
          List.insertionSort (fun a b => a ≤ b) ((m :: rest) ++ [v]) := by
        simp [topInsert, hmv]
      constructor
      · rw [heq]
        intro hnil
        have hlen := congrArg List.length hnil
        rw [List.length_insertionSort] at hlen
        simp at hlen
      · intro x hx
        rw [heq, List.mem_insertionSort] at hx
        rcases List.mem_append.mp hx with hin | hin
        · exact hpos x hin
        · have hxv : x = v := by simpa using hin
          rw [hxv]
          exact le_trans (hpos m (List.mem_cons_self m rest)) hmv
    · have heq : topInsert (m :: rest) v = m :: rest := by
        simp [topInsert, hmv]
      rw [heq]
      exact ⟨List.cons_ne_nil m rest, hpos⟩

/-- Once the top-days list is non-empty with every element at least 1,
the whole remaining history computation succeeds: each day's insertion
and pop loop preserve that invariant. -/
theorem historyAux_isSome : ∀ (days : List Nat) (top : List Nat), top ≠ [] →
    (∀ x ∈ top, 1 ≤ x) → (historyAux top days).isSome = true := by
  intro days
  induction days with
  | nil => intro top _ _; rfl
  | cons v rest ih =>
    intro top hne hpos
    obtain ⟨h1, h2⟩ := topInsert_pos top v hne hpos
    obtain ⟨top2, hp, hne2, hpos2⟩ := popLoop_pos (topInsert top v) h2 h1
    obtain ⟨tail, htail⟩ := Option.isSome_iff_exists.mp (ih top2 hne2 hpos2)
    simp only [historyAux, hp, htail, Option.isSome_some]

/-- Claim C10: if the first chronological daily total is at least 1, the
top-days list stays non-empty at every check of the pop loop and the
whole history computation returns a value (top_days[0] stays in
bounds); if the first daily total is 0, the sole element is popped and
the loop condition reads the head of the empty list, the modelled
IndexError. -/
theorem history_access_safety :
    (∀ (d : Nat) (rest : List Nat), 1 ≤ d →
        (get_eddington_number_history (d :: rest)).isSome = true) ∧
    (∀ rest : List Nat, get_eddington_number_history (0 :: rest) = none) := by
  constructor
  · intro d rest hd
    have h0 : topInsert [] d = [d] := rfl
    have h1 : popLoop [d] = some [d] := by
      simp only [popLoop]
      rw [if_neg (by simp only [List.length_nil, Nat.lt_one_iff]; omega)]
    have hpos : ∀ x ∈ [d], 1 ≤ x := by
      intro x hx
      rw [List.mem_singleton] at hx
      rw [hx]
      exact hd
    obtain ⟨tail, htail⟩ :=
      Option.isSome_iff_exists.mp (historyAux_isSome rest [d] (List.cons_ne_nil d []) hpos)
    show (historyAux [] (d :: rest)).isSome = true
    simp only [historyAux, h0, h1, htail, Option.isSome_some]
  · intro rest
    rfl

/-- Witness for C10: the history over [5, 1, 6] is defined, the history
over [0, 7] faults on its first day. -/
theorem history_access_safety_witness :
    (get_eddington_number_history [5, 1, 6]).isSome = true ∧
      get_eddington_number_history [0, 7] = none := by
  exact ⟨history_access_safety.1 5 [1, 6] (by decide), history_access_safety.2 [7]⟩
